import Mathlib

/-!
Verification of the `content-published` ingestion worker
(`handleRejection`, `createPost`, `updatePost`, `fixData`) against its
natural-language specification.  The worker reconciles crawler- and
submission-originated content events against a store of posts,
submissions and keyword/question indexes.

Timestamps are modelled as natural numbers (milliseconds since epoch);
the source compares `Date` values through their ISO-8601 strings, which
orders identically.  JavaScript `undefined` on an update payload field
is modelled as `none` (the ORM skips absent fields on update), while an
explicit `null` written to a nullable column is modelled as `some none`
on doubly-optional fields.
-/

namespace DailyApi

/-- Post subtypes, discriminated by the `content_type` tag. -/
inductive PostType where
  | article
  | freeform
  | share
  | welcome
deriving DecidableEq, Repr

/-- Origin tag of a post. -/
inductive PostOrigin where
  | crawler
  | communityPicks
  | squad
deriving DecidableEq, Repr

/-- Submission lifecycle states. -/
inductive SubmissionStatus where
  | started
  | accepted
  | rejected
deriving DecidableEq, Repr

/-- Rejection reasons recorded on a submission.  `known k` is a
recognized key of the fail-error mapping echoed back verbatim. -/
inductive FailReason where
  | scoutIsAuthor
  | genericError
  | known (k : String)
deriving DecidableEq, Repr

/-- The flags bag stored on a post (`private` is spelled `priv`).
Each sub-flag is optional: `none` means the key is absent from the
stored JSON bag. -/
structure Flags where
  priv : Option Bool
  visible : Option Bool
  showOnFeed : Option Bool
  sentAnalyticsReport : Option Bool
deriving DecidableEq, Repr

/-- The empty flags bag. -/
def noFlags : Flags := ⟨none, none, none, none⟩

/-- A stored post row (all four subtypes share one table; `ptype` is
the discriminator, `sharedPostId` is only populated on share posts). -/
structure PostRec where
  id : String
  shortId : String
  ptype : PostType
  url : Option String
  canonicalUrl : Option String
  title : Option String
  image : Option String
  authorId : Option String
  scoutId : Option String
  creatorTwitter : Option String
  siteTwitter : Option String
  sourceId : Option String
  origin : Option PostOrigin
  visible : Bool
  visibleAt : Option Nat
  metadataChangedAt : Nat
  createdAt : Nat
  publishedAt : Option Nat
  score : Nat
  readTime : Option Nat
  summary : Option String
  description : Option String
  toc : Option String
  contentCuration : Option (List String)
  tagsStr : Option String
  priv : Option Bool
  sentAnalyticsReport : Option Bool
  showOnFeed : Option Bool
  flags : Flags
  yggdrasilId : Option String
  sharedPostId : Option String
deriving DecidableEq, Repr

/-- A stored submission row. -/
structure SubmissionRec where
  id : String
  userId : String
  status : SubmissionStatus
  reason : Option FailReason
deriving DecidableEq, Repr

/-- The payload handed to `createPost` / `updatePost` (the source's
`Partial<ArticlePost>`).  `none` on a field means the key is absent
(JavaScript `undefined`), so the ORM leaves the column untouched on
update; `some none` on a doubly-optional field is an explicit `null`
that overwrites the column. -/
structure UpdateData where
  id : Option String
  shortId : Option String
  url : Option String
  canonicalUrl : Option String
  title : Option String
  image : Option String
  authorId : Option (Option String)
  scoutId : Option String
  creatorTwitter : Option (Option String)
  siteTwitter : Option String
  sourceId : Option String
  origin : Option PostOrigin
  visible : Option Bool
  visibleAt : Option (Option Nat)
  metadataChangedAt : Nat
  createdAt : Option Nat
  publishedAt : Option Nat
  score : Option Nat
  readTime : Option Nat
  summary : Option String
  description : Option String
  toc : Option String
  contentCuration : Option (List String)
  tagsStr : Option (Option String)
  priv : Option Bool
  sentAnalyticsReport : Option Bool
  showOnFeed : Option Bool
  flags : Option Flags
  yggdrasilId : Option String
deriving DecidableEq, Repr

/-- The store touched by the worker: post rows, submission rows, and the
keyword/question side tables (post id keyed pairs). -/
structure Store where
  posts : List PostRec
  submissions : List SubmissionRec
  postKeywords : List (String × String)
  postQuestions : List (String × String)
deriving DecidableEq, Repr

/-- JavaScript `a || b` on an optional string: `undefined` and the empty
string are falsy. -/
def jsOr (a b : Option String) : Option String :=
  match a with
  | some s => if s = "" then b else some s
  | none => b

/-- JavaScript truthiness of `x?.length` on an optional string. -/
def strTruthy : Option String → Bool
  | some s => s ≠ ""
  | none => false

/-- Update-field application for a plain column: `some v` overwrites,
`none` (absent key) keeps the stored value. -/
def overOpt (d : Option α) (o : Option α) : Option α :=
  match d with
  | some v => some v
  | none => o

/-- Update-field application for a nullable column carried as a doubly
optional payload field: an absent key keeps the stored value, an
explicit `null` (`some none`) clears it. -/
def overNull (d : Option (Option α)) (o : Option α) : Option α :=
  d.getD o

/-- Modelled from the spec: `updateFlagsStatement` (not under `src/`)
writes the flags bag as an update expression that only touches the
provided sub-flags rather than replacing the whole stored bag. -/
def mergeFlags (old sub : Flags) : Flags where
  priv := overOpt sub.priv old.priv
  visible := overOpt sub.visible old.visible
  showOnFeed := overOpt sub.showOnFeed old.showOnFeed
  sentAnalyticsReport := overOpt sub.sentAnalyticsReport old.sentAnalyticsReport

/-- Modelled from the spec: `addKeywords` (not under `src/`) additively
applies keyword associations for a post — each keyword in the list is
associated with the post id, without duplicating existing pairs. -/
def addKeywords (idx : List (String × String)) (ks : List String)
    (postId : String) : List (String × String) :=
  ks.foldl (fun acc k => if (k, postId) ∈ acc then acc else acc ++ [(k, postId)]) idx

/-- Modelled from the spec: `removeKeywords` (not under `src/`) removes
the associations between the given keywords and the given post id. -/
def removeKeywords (idx : List (String × String)) (ks : List String)
    (postId : String) : List (String × String) :=
  idx.filter fun q => !(decide (q.2 = postId) && decide (q.1 ∈ ks))

/-- Modelled from the spec: `addQuestions` (not under `src/`) additively
applies question associations for a post; per the spec, questions are
never diffed or removed, also in update mode. -/
def addQuestions (idx : List (String × String)) (qs : List String)
    (postId : String) : List (String × String) :=
  qs.foldl (fun acc q => if (q, postId) ∈ acc then acc else acc ++ [(q, postId)]) idx

/-- Modelled from the spec: the sentinel "unknown source" collection id
(`UNKNOWN_SOURCE`, not under `src/`). -/
def UNKNOWN_SOURCE : String := "unknown"

/-- `findOneBy({ id })` on the submission repository. -/
def findSubmission (s : Store) (sid : String) : Option SubmissionRec :=
  s.submissions.find? fun x => decide (x.id = sid)

/-- `update({ id }, { status })`: touch only the status of the matching
submission rows. -/
def setSubStatus (subs : List SubmissionRec) (sid : String)
    (st : SubmissionStatus) : List SubmissionRec :=
  subs.map fun x => if x.id = sid then { x with status := st } else x

/-- `update({ id }, { status, reason })` / `save({ ...submission,
status, reason })`: set status and reason of the matching rows. -/
def setSubStatusReason (subs : List SubmissionRec) (sid : String)
    (st : SubmissionStatus) (r : FailReason) : List SubmissionRec :=
  subs.map fun x => if x.id = sid then { x with status := st, reason := some r } else x

/-- `handleRejection` from the worker: parameterised by the recognized
rejection-reason keys (`reject_reason in SubmissionFailErrorMessage`,
whose key set is not under `src/`). -/
def handleRejection (recognized : String → Bool) (reject_reason : String)
    (submission_id : Option String) (s : Store) : Store :=
  match submission_id with
  | none => s
  | some sid =>
    if sid = "" then s
    else
      match findSubmission s sid with
      | some sub =>
        if sub.status = SubmissionStatus.started then
          { s with
            submissions := setSubStatusReason s.submissions sid .rejected
              (if recognized reject_reason then .known reject_reason else .genericError) }
        else s
      | none => s

/-- SQL equality of two nullable url columns/parameters: `NULL` never
compares equal. -/
def urlOptEq : Option String → Option String → Bool
  | some a, some b => decide (a = b)
  | _, _ => false

/-- The four-way dedup predicate of `createPost`:
`url = :url or url = :canonicalUrl or "canonicalUrl" = :url or
"canonicalUrl" = :canonicalUrl`. -/
def matchesUrl (p : PostRec) (url canonicalUrl : Option String) : Bool :=
  urlOptEq p.url url || urlOptEq p.url canonicalUrl ||
    urlOptEq p.canonicalUrl url || urlOptEq p.canonicalUrl canonicalUrl

/-- `repository(ArticlePost).create(data)` followed by `save`: a fresh
row built from the payload, with absent nullable fields left `NULL`. -/
def toPostRec (d : UpdateData) : PostRec where
  id := d.id.getD ""
  shortId := d.shortId.getD ""
  ptype := .article
  url := d.url
  canonicalUrl := d.canonicalUrl
  title := d.title
  image := d.image
  authorId := overNull d.authorId none
  scoutId := d.scoutId
  creatorTwitter := overNull d.creatorTwitter none
  siteTwitter := d.siteTwitter
  sourceId := d.sourceId
  origin := d.origin
  visible := d.visible.getD false
  visibleAt := overNull d.visibleAt none
  metadataChangedAt := d.metadataChangedAt
  createdAt := d.createdAt.getD 0
  publishedAt := d.publishedAt
  score := d.score.getD 0
  readTime := d.readTime
  summary := d.summary
  description := d.description
  toc := d.toc
  contentCuration := d.contentCuration
  tagsStr := overNull d.tagsStr none
  priv := d.priv
  sentAnalyticsReport := d.sentAnalyticsReport
  showOnFeed := d.showOnFeed
  flags := d.flags.getD noFlags
  yggdrasilId := d.yggdrasilId
  sharedPostId := none

/-- The field stamping of `createPost` once the guards passed: the
fresh short id doubles as primary id, creation time and the
whole-minutes score are set, and the origin resolves to community
picks when a scout is attached, else the supplied origin or crawler. -/
def finalizedData (d : UpdateData) (postId : String) (now : Nat) : UpdateData :=
  { d with id := some postId, shortId := some postId, createdAt := some now,
           score := some (now / 60000),
           origin := some (if strTruthy d.scoutId
             then PostOrigin.communityPicks else d.origin.getD .crawler) }

/-- JavaScript `s.split(',')`: the comma-separated segments of `s`
(`""` yields `[""]`). -/
def splitComma (s : String) : List String :=
  s.data.foldr
    (fun c acc =>
      if c = ',' then "" :: acc
      else
        match acc with
        | [] => [String.mk [c]]
        | h :: t => String.mk (c :: h.data) :: t)
    [""]

/-- The tail of `createPost` after the dedup and submission guards:
stamp the payload, insert the row and additively index keywords and
questions. -/
def finalizeCreate (s : Store) (d : UpdateData) (mergedKeywords questions : List String)
    (postId : String) (now : Nat) : Store × Option PostRec :=
  let post := toPostRec (finalizedData d postId now)
  ({ s with posts := s.posts ++ [post],
            postKeywords := addKeywords s.postKeywords mergedKeywords postId,
            postQuestions := addQuestions s.postQuestions questions postId },
   some post)

/-- `createPost` from the worker.  `postId` is the freshly generated
short id and `now` the creation timestamp (both produced by external
collaborators).  Returns the store and the created row, `none` on the
no-op branches. -/
def createPost (s : Store) (d : UpdateData) (submissionId : Option String)
    (mergedKeywords questions : List String) (postId : String) (now : Nat) :
    Store × Option PostRec :=
  if s.posts.any (fun p => matchesUrl p d.url d.canonicalUrl) then (s, none)
  else
    match submissionId with
    | some sid =>
      if sid = "" then finalizeCreate s d mergedKeywords questions postId now
      else
        match findSubmission s sid with
        | some sub =>
          if overNull d.authorId none = some sub.userId then
            ({ s with submissions :=
                setSubStatusReason s.submissions sid .rejected .scoutIsAuthor },
             none)
          else
            finalizeCreate
              { s with submissions := setSubStatus s.submissions sid .accepted }
              { d with scoutId := some sub.userId }
              mergedKeywords questions postId now
        | none => finalizeCreate s d mergedKeywords questions postId now
    | none => finalizeCreate s d mergedKeywords questions postId now

/-- The per-type allowlist of `allowedFieldsMapping` plus the always
kept fields, applied to a freeform update payload: every other key of
the payload is deleted. -/
def stripForFreeform (d : UpdateData) : UpdateData where
  id := d.id
  visible := d.visible
  visibleAt := d.visibleAt
  flags := d.flags
  yggdrasilId := d.yggdrasilId
  contentCuration := d.contentCuration
  description := d.description
  metadataChangedAt := d.metadataChangedAt
  readTime := d.readTime
  summary := d.summary
  tagsStr := d.tagsStr
  shortId := none
  url := none
  canonicalUrl := none
  title := none
  image := none
  authorId := none
  scoutId := none
  creatorTwitter := none
  siteTwitter := none
  sourceId := none
  origin := none
  createdAt := none
  publishedAt := none
  score := none
  toc := none
  priv := none
  sentAnalyticsReport := none
  showOnFeed := none

/-- `repository(postType).update({ id }, { ...data, flags: ... })`:
apply every present payload field to the stored row, merging the flags
bag through the update expression. -/
def applyUpdate (old : PostRec) (d : UpdateData) (flagsArg : Flags) : PostRec where
  id := d.id.getD old.id
  shortId := d.shortId.getD old.shortId
  ptype := old.ptype
  url := overOpt d.url old.url
  canonicalUrl := overOpt d.canonicalUrl old.canonicalUrl
  title := overOpt d.title old.title
  image := overOpt d.image old.image
  authorId := overNull d.authorId old.authorId
  scoutId := overOpt d.scoutId old.scoutId
  creatorTwitter := overNull d.creatorTwitter old.creatorTwitter
  siteTwitter := overOpt d.siteTwitter old.siteTwitter
  sourceId := overOpt d.sourceId old.sourceId
  origin := overOpt d.origin old.origin
  visible := d.visible.getD old.visible
  visibleAt := overNull d.visibleAt old.visibleAt
  metadataChangedAt := d.metadataChangedAt
  createdAt := d.createdAt.getD old.createdAt
  publishedAt := overOpt d.publishedAt old.publishedAt
  score := d.score.getD old.score
  readTime := overOpt d.readTime old.readTime
  summary := overOpt d.summary old.summary
  description := overOpt d.description old.description
  toc := overOpt d.toc old.toc
  contentCuration := overOpt d.contentCuration old.contentCuration
  tagsStr := overNull d.tagsStr old.tagsStr
  priv := overOpt d.priv old.priv
  sentAnalyticsReport := overOpt d.sentAnalyticsReport old.sentAnalyticsReport
  showOnFeed := overOpt d.showOnFeed old.showOnFeed
  flags := mergeFlags old.flags flagsArg
  yggdrasilId := overOpt d.yggdrasilId old.yggdrasilId
  sharedPostId := old.sharedPostId

/-- The row predicate of `findOneBy({ id })` on the typed repository:
id match plus the subtype discriminator. -/
def postMatches (id : String) (ct : PostType) (p : PostRec) : Bool :=
  decide (p.id = id ∧ p.ptype = ct)

/-- The became-visible cascade of `updatePost`: every share post
wrapping the target becomes visible with the same visibility timestamp,
its privacy synced to the incoming value (skipped when the payload
carries none, as after freeform stripping). -/
def cascadeShare (targetId : String) (d : UpdateData) (p : PostRec) : PostRec :=
  if p.ptype = .share ∧ p.sharedPostId = some targetId then
    { p with
      visible := true,
      visibleAt := overNull d.visibleAt p.visibleAt,
      priv := overOpt d.priv p.priv,
      flags := mergeFlags p.flags
        { (d.flags.getD noFlags) with priv := d.priv, visible := some true } }
  else p

/-- The strict-inequality test `databasePost.tagsStr !== data.tagsStr`:
an absent payload key (`undefined`) never equals a stored value
(including `NULL`). -/
def tagsChanged (storedTags : Option String) (dTags : Option (Option String)) : Bool :=
  match dTags with
  | some v => decide (v ≠ storedTags)
  | none => true

/-- The applied tail of `updatePost`, after the staleness guard passed
for the fetched row `old`. -/
def updatePostApply (s : Store) (d1 : UpdateData) (old : PostRec)
    (mergedKeywords questions : List String) (ct : PostType) : Store :=
  let title := jsOr d1.title old.title
  let becameVisible : Bool :=
    if ct = .freeform then old.visible else !old.visible && strTruthy title
  let d2 : UpdateData :=
    { d1 with
      id := some old.id, title := title, visible := some becameVisible,
      visibleAt := some (if becameVisible
        then some (old.visibleAt.getD d1.metadataChangedAt) else none),
      sourceId := jsOr d1.sourceId old.sourceId }
  let d3 := if ct = .freeform then stripForFreeform d2 else d2
  let flagsArg : Flags := { (d3.flags.getD noFlags) with visible := d3.visible }
  let posts1 := s.posts.map fun p =>
    if postMatches old.id ct p then applyUpdate p d3 flagsArg else p
  let posts2 := if becameVisible then posts1.map (cascadeShare old.id d3) else posts1
  let kw1 :=
    if tagsChanged old.tagsStr d3.tagsStr then
      addKeywords
        (match old.tagsStr with
         | some ts =>
           if ts = "" then s.postKeywords
           else removeKeywords s.postKeywords (splitComma ts) old.id
         | none => s.postKeywords)
        mergedKeywords old.id
    else s.postKeywords
  { s with posts := posts2, postKeywords := kw1,
           postQuestions := addQuestions s.postQuestions questions old.id }

/-- `updatePost` from the worker.  Returns the store and whether the
update was applied (`false` on the stale / missing-post no-op). -/
def updatePost (s : Store) (d0 : UpdateData) (id : String)
    (mergedKeywords questions : List String) (ct : PostType) : Store × Bool :=
  let d1 := if d0.origin = some PostOrigin.squad
    then { d0 with sourceId := some UNKNOWN_SOURCE } else d0
  match s.posts.find? (postMatches id ct) with
  | none => (s, false)
  | some old =>
    if d1.metadataChangedAt ≤ old.metadataChangedAt then (s, false)
    else (updatePostApply s d1 old mergedKeywords questions ct, true)

/-- The `extra` metadata bag of an inbound event. -/
structure EventExtra where
  keywords : Option (List String)
  questions : Option (List String)
  summary : Option String
  description : Option String
  read_time : Option Nat
  canonical_url : Option String
  site_twitter : Option String
  creator_twitter : Option String
  toc : Option String
  content_curation : Option (List String)
deriving DecidableEq, Repr

/-- An inbound `content-published` event payload. -/
structure EventData where
  id : String
  post_id : Option String
  url : Option String
  image : Option String
  title : Option String
  content_type : Option PostType
  reject_reason : Option String
  submission_id : Option String
  source_id : Option String
  origin : Option PostOrigin
  published_at : Option Nat
  updated_at : Option Nat
  order : Option Nat
deriving DecidableEq, Repr

/-- Resolved results of the read-only collaborators consulted by
`fixData`: the author-resolution service, the source-privacy lookup,
the keyword vocabulary merge, read-time parsing, the current clock and
HTML entity decoding. -/
structure FixEnv where
  authorId : Option String
  privacy : Option Bool
  allowedKeywords : List String
  mergedKeywords : List String
  readTime : Option Nat
  now : Nat
  decode : String → String

/-- The result bundle of `fixData`. -/
structure FixResult where
  mergedKeywords : List String
  questions : List String
  content_type : Option PostType
  fixedData : UpdateData

/-- `fixData` from the worker: normalization and enrichment of the
event payload into the create/update payload. -/
def fixData (env : FixEnv) (e : EventData) (extra : Option EventExtra) : FixResult :=
  let creatorTwitter : Option (Option String) :=
    match extra.bind (·.creator_twitter) with
    | some s => if s = "" ∨ s = "@" then some none else some (some s)
    | none => none
  let becomesVisible := strTruthy e.title
  let sentReport : Bool := env.privacy.getD false || !(strTruthy env.authorId)
  let onFeed : Bool := !(decide (0 < e.order.getD 0))
  let joined := String.intercalate "," env.allowedKeywords
  { mergedKeywords := env.mergedKeywords
    questions := (extra.bind (·.questions)).getD []
    content_type := e.content_type
    fixedData :=
      { origin := e.origin
        authorId := some env.authorId
        creatorTwitter := creatorTwitter
        url := e.url
        canonicalUrl := jsOr (extra.bind (·.canonical_url)) e.url
        image := e.image
        sourceId := e.source_id
        title := match e.title with
          | none => none
          | some t => if t = "" then some "" else some (env.decode t)
        readTime := env.readTime
        publishedAt := e.published_at
        metadataChangedAt := e.updated_at.getD env.now
        visible := some becomesVisible
        visibleAt := some (if becomesVisible then some env.now else none)
        tagsStr := some (if joined = "" then none else some joined)
        priv := env.privacy
        sentAnalyticsReport := some sentReport
        summary := extra.bind (·.summary)
        description := extra.bind (·.description)
        siteTwitter := extra.bind (·.site_twitter)
        toc := extra.bind (·.toc)
        contentCuration := extra.bind (·.content_curation)
        showOnFeed := some onFeed
        flags := some
          { priv := env.privacy
            visible := some becomesVisible
            showOnFeed := some onFeed
            sentAnalyticsReport := some sentReport }
        yggdrasilId := some e.id
        id := none
        shortId := none
        scoutId := none
        createdAt := none
        score := none } }

/-- The create branch of the worker handler: normalize the event
through `fixData`, then run `createPost` with the event's submission
id. -/
def handleCreate (env : FixEnv) (e : EventData) (extra : Option EventExtra)
    (s : Store) (postId : String) (now : Nat) : Store × Option PostRec :=
  let f := fixData env e extra
  createPost s f.fixedData e.submission_id f.mergedKeywords f.questions postId now

/-! ### Baseline values used by concrete evaluations -/

/-- A payload with every optional field absent. -/
def emptyData : UpdateData where
  id := none
  shortId := none
  url := none
  canonicalUrl := none
  title := none
  image := none
  authorId := none
  scoutId := none
  creatorTwitter := none
  siteTwitter := none
  sourceId := none
  origin := none
  visible := none
  visibleAt := none
  metadataChangedAt := 0
  createdAt := none
  publishedAt := none
  score := none
  readTime := none
  summary := none
  description := none
  toc := none
  contentCuration := none
  tagsStr := none
  priv := none
  sentAnalyticsReport := none
  showOnFeed := none
  flags := none
  yggdrasilId := none

/-- A baseline stored post row. -/
def basePost : PostRec where
  id := "p1"
  shortId := "p1"
  ptype := .article
  url := none
  canonicalUrl := none
  title := none
  image := none
  authorId := none
  scoutId := none
  creatorTwitter := none
  siteTwitter := none
  sourceId := none
  origin := none
  visible := false
  visibleAt := none
  metadataChangedAt := 0
  createdAt := 0
  publishedAt := none
  score := 0
  readTime := none
  summary := none
  description := none
  toc := none
  contentCuration := none
  tagsStr := none
  priv := none
  sentAnalyticsReport := none
  showOnFeed := none
  flags := noFlags
  yggdrasilId := none
  sharedPostId := none

/-! ### Shared lemmas -/

theorem setSubStatusReason_mem {subs : List SubmissionRec} {sid : String}
    {st : SubmissionStatus} {r : FailReason} {x : SubmissionRec}
    (hx : x ∈ setSubStatusReason subs sid st r) (hid : x.id = sid) :
    x.status = st ∧ x.reason = some r := by
  unfold setSubStatusReason at hx
  obtain ⟨a, ha, hfa⟩ := List.mem_map.mp hx
  by_cases h : a.id = sid
  · rw [if_pos h] at hfa
    subst hfa
    exact ⟨rfl, rfl⟩
  · rw [if_neg h] at hfa
    subst hfa
    exact absurd hid h

/-! ### Claim C1 -/

/-- Claim C1: for every update event targeting post id `p`, if no post
with id `p` exists (the typed lookup finds nothing), or the existing
post's `metadataChangedAt` is at or after the incoming value, then
`updatePost` performs no store mutation and returns the no-op result. -/
theorem updatePost_stale_is_noop (s : Store) (d : UpdateData) (id : String)
    (mk qs : List String) (ct : PostType)
    (h : s.posts.find? (postMatches id ct) = none ∨
         ∃ p, s.posts.find? (postMatches id ct) = some p ∧
           d.metadataChangedAt ≤ p.metadataChangedAt) :
    updatePost s d id mk qs ct = (s, false) := by
  unfold updatePost
  rcases h with h | ⟨p, hp, hle⟩
  · simp only [h]
  · simp only [hp]
    by_cases ho : d.origin = some PostOrigin.squad <;> simp [ho, hle]

/-- Witness for C1: a stale update (incoming timestamp 5 against a
stored 10) leaves the store untouched. -/
theorem updatePost_stale_is_noop_witness :
    updatePost ⟨[{ basePost with metadataChangedAt := 10 }], [], [], []⟩
        { emptyData with metadataChangedAt := 5 } "p1" [] [] .article
      = (⟨[{ basePost with metadataChangedAt := 10 }], [], [], []⟩, false) :=
  updatePost_stale_is_noop _ _ _ _ _ _
    (Or.inr ⟨{ basePost with metadataChangedAt := 10 }, by decide, by decide⟩)

/-! ### Claim C8 -/

/-- Claim C8: for every event carrying a rejection reason: with no
submission id (or a falsy one) or a missing submission the handler
performs no store mutation; a submission in the `Started` state becomes
`Rejected` with the incoming reason when recognized and the
generic-error reason otherwise; submissions in any other state are
untouched; in all cases no post or keyword/question index is touched. -/
theorem handleRejection_spec (recognized : String → Bool) (reason : String)
    (sid : Option String) (s : Store) :
    ((sid = none ∨ sid = some "") → handleRejection recognized reason sid s = s) ∧
    (∀ i, sid = some i → findSubmission s i = none →
      handleRejection recognized reason sid s = s) ∧
    (∀ i sub, sid = some i → i ≠ "" → findSubmission s i = some sub →
      sub.status = .started →
      handleRejection recognized reason sid s =
        { s with submissions := (setSubStatusReason s.submissions i .rejected
            (if recognized reason then .known reason else .genericError)) } ∧
      (∀ x ∈ (handleRejection recognized reason sid s).submissions, x.id = i →
        x.status = .rejected ∧
        x.reason = some (if recognized reason then .known reason else .genericError)) ∧
      (handleRejection recognized reason sid s).posts = s.posts ∧
      (handleRejection recognized reason sid s).postKeywords = s.postKeywords ∧
      (handleRejection recognized reason sid s).postQuestions = s.postQuestions) ∧
    (∀ i sub, sid = some i → findSubmission s i = some sub →
      sub.status ≠ .started → handleRejection recognized reason sid s = s) := by
  refine ⟨?_, ?_, ?_, ?_⟩
  · rintro (h | h) <;> subst h <;> simp [handleRejection]
  · rintro i rfl hnone
    unfold handleRejection
    by_cases hi : i = "" <;> simp [hi, hnone]
  · rintro i sub rfl hi hfind hstarted
    have hres : handleRejection recognized reason (some i) s =
        { s with submissions := (setSubStatusReason s.submissions i .rejected
            (if recognized reason then .known reason else .genericError)) } := by
      unfold handleRejection
      simp [hi, hfind, hstarted]
    refine ⟨hres, ?_, by rw [hres], by rw [hres], by rw [hres]⟩
    intro x hx hxid
    rw [hres] at hx
    exact setSubStatusReason_mem hx hxid
  · rintro i sub rfl hfind hst
    unfold handleRejection
    by_cases hi : i = "" <;> simp [hi, hfind, hst]

/-- Witness for C8: the spec scenario — reason `"FAILED"` (not a
recognized key), submission `s1` in `Started` state — yields a
`Rejected` submission with the generic-error reason. -/
theorem handleRejection_spec_witness :
    handleRejection (fun r => decide (r = "LOW_QUALITY")) "FAILED" (some "s1")
        ⟨[], [⟨"s1", "u1", .started, none⟩], [], []⟩
      = ⟨[], [⟨"s1", "u1", .rejected, some .genericError⟩], [], []⟩ := by
  have h := ((handleRejection_spec (fun r => decide (r = "LOW_QUALITY")) "FAILED"
      (some "s1") ⟨[], [⟨"s1", "u1", .started, none⟩], [], []⟩).2.2.1
      "s1" ⟨"s1", "u1", .started, none⟩ rfl (by decide) rfl rfl).1
  rw [h]
  decide

/-! ### Claim C5 -/

/-- Counterexample to C5: `createPost` re-transitions a terminal
submission.  A store holds submission `s1` already `Rejected`; a create
event referencing `s1` with a fresh URL and an author different from
the submitting user flips its status to `Accepted`. -/
theorem createPost_retransitions_terminal :
    (⟨[], [⟨"s1", "u2", .rejected, some .genericError⟩], [], []⟩ :
        Store).submissions.map (fun x => x.status) = [SubmissionStatus.rejected] ∧
    ((createPost ⟨[], [⟨"s1", "u2", .rejected, some .genericError⟩], [], []⟩
        { emptyData with authorId := some (some "u1"), url := some "http://a.com" }
        (some "s1") [] [] "pid1" 0).1.submissions.map (fun x => x.status))
      = [SubmissionStatus.accepted] :=
  ⟨rfl, rfl⟩

/-- Claim C5 (amended): rejection handling (`handleRejection`) never
re-transitions a submission already in a terminal state (`Accepted` or
`Rejected`): its status and reason — indeed the whole store — are left
unchanged.  The create path, by contrast, updates a referenced
submission's status without checking its current state. -/
theorem handleRejection_terminal_noop (recognized : String → Bool) (reason : String)
    (i : String) (s : Store) (sub : SubmissionRec)
    (hf : findSubmission s i = some sub)
    (ht : sub.status = .accepted ∨ sub.status = .rejected) :
    handleRejection recognized reason (some i) s = s := by
  have hne : sub.status ≠ .started := by
    rcases ht with h | h <;> simp [h]
  unfold handleRejection
  by_cases hi : i = "" <;> simp [hi, hf, hne]

/-- Witness for C5 (amended): a rejection event against an already
`Accepted` submission leaves the store unchanged. -/
theorem handleRejection_terminal_noop_witness :
    handleRejection (fun _ => false) "FAILED" (some "s1")
        ⟨[], [⟨"s1", "u1", .accepted, none⟩], [], []⟩
      = ⟨[], [⟨"s1", "u1", .accepted, none⟩], [], []⟩ :=
  handleRejection_terminal_noop _ _ _ _ ⟨"s1", "u1", .accepted, none⟩ rfl (Or.inl rfl)

/-- `createPost` either returns a no-op, or runs `finalizeCreate` on a
store with the same post table and a payload that agrees with the input
on url, canonical url and visibility. -/
theorem createPost_creates_aux (s : Store) (d : UpdateData) (subId : Option String)
    (mk qs : List String) (postId : String) (now : Nat) :
    (createPost s d subId mk qs postId now).2 = none ∨
    ∃ s1 d1, s1.posts = s.posts ∧ d1.url = d.url ∧ d1.canonicalUrl = d.canonicalUrl ∧
      d1.visible = d.visible ∧ d1.visibleAt = d.visibleAt ∧
      createPost s d subId mk qs postId now = finalizeCreate s1 d1 mk qs postId now := by
  unfold createPost
  repeat' split
  all_goals first
    | exact Or.inl rfl
    | (refine Or.inr ⟨_, _, ?_, ?_, ?_, ?_, ?_, rfl⟩ <;> rfl)

/-- Inversion of a successful `createPost`: the created row is the
stamped payload (url/canonicalUrl/visibility untouched by the
stamping), and the store gained exactly that row, appended. -/
theorem createPost_created {s : Store} {d : UpdateData} {subId : Option String}
    {mk qs : List String} {postId : String} {now : Nat} {p : PostRec}
    (h : (createPost s d subId mk qs postId now).2 = some p) :
    ∃ d2 : UpdateData, d2.url = d.url ∧ d2.canonicalUrl = d.canonicalUrl ∧
      d2.visible = d.visible ∧ d2.visibleAt = d.visibleAt ∧
      d2.id = some postId ∧ d2.shortId = some postId ∧
      d2.score = some (now / 60000) ∧ d2.createdAt = some now ∧
      p = toPostRec d2 ∧
      (createPost s d subId mk qs postId now).1.posts = s.posts ++ [p] := by
  rcases createPost_creates_aux s d subId mk qs postId now with
    hnone | ⟨s1, d1, hp1, hu, hc, hv, hva, heq⟩
  · rw [hnone] at h
    cases h
  · rw [heq] at h ⊢
    have hsnd : (finalizeCreate s1 d1 mk qs postId now).2 =
        some (toPostRec (finalizedData d1 postId now)) := rfl
    rw [hsnd] at h
    have hp := (Option.some.inj h).symm
    subst hp
    refine ⟨finalizedData d1 postId now, ?_, ?_, ?_, ?_, rfl, rfl, rfl, rfl, rfl, ?_⟩
    · show d1.url = d.url
      exact hu
    · show d1.canonicalUrl = d.canonicalUrl
      exact hc
    · show d1.visible = d.visible
      exact hv
    · show d1.visibleAt = d.visibleAt
      exact hva
    · show s1.posts ++ [toPostRec (finalizedData d1 postId now)] =
        s.posts ++ [toPostRec (finalizedData d1 postId now)]
      rw [hp1]

/-! ### Claim C9 -/

/-- Claim C9: every successfully created post has score
`floor(creation-time-ms / 60000)` (whole minutes since epoch) and its
id equals its shortId, both being the freshly generated short id. -/
theorem createPost_score_id {s : Store} {d : UpdateData} {subId : Option String}
    {mk qs : List String} {postId : String} {now : Nat} {p : PostRec}
    (h : (createPost s d subId mk qs postId now).2 = some p) :
    p.score = now / 60000 ∧ p.id = postId ∧ p.shortId = postId := by
  obtain ⟨d2, -, -, -, -, hid, hshort, hscore, -, hp, -⟩ := createPost_created h
  subst hp
  refine ⟨?_, ?_, ?_⟩
  · show d2.score.getD 0 = now / 60000
    rw [hscore]; rfl
  · show d2.id.getD "" = postId
    rw [hid]; rfl
  · show d2.shortId.getD "" = postId
    rw [hshort]; rfl

/-- Witness for C9: creating into an empty store at time 123456 ms
yields score `123456 / 60000 = 2` and id = shortId = the generated
short id. -/
theorem createPost_score_id_witness :
    (toPostRec (finalizedData emptyData "abc" 123456)).score = 123456 / 60000 ∧
    (toPostRec (finalizedData emptyData "abc" 123456)).id = "abc" ∧
    (toPostRec (finalizedData emptyData "abc" 123456)).shortId = "abc" :=
  @createPost_score_id ⟨[], [], [], []⟩ emptyData none [] [] "abc" 123456
    (toPostRec (finalizedData emptyData "abc" 123456)) rfl

/-! ### Claim C4 -/

/-- Counterexample to C4 as stated: when an existing post already
matches the incoming URL, `createPost` exits at the dedup guard before
reloading the submission, so a self-submission (author `u1` equals the
submitting user of started submission `s1`) is NOT marked `Rejected` —
its status stays `Started`. -/
theorem createPost_dedup_preempts_self_submission :
    ((createPost
        ⟨[{ basePost with id := "px", url := some "http://x.com" }],
         [⟨"s1", "u1", .started, none⟩], [], []⟩
        { emptyData with url := some "http://x.com", authorId := some (some "u1") }
        (some "s1") [] [] "p9" 5).1.submissions.map (fun x => x.status))
      = [SubmissionStatus.started] ∧
    (createPost
        ⟨[{ basePost with id := "px", url := some "http://x.com" }],
         [⟨"s1", "u1", .started, none⟩], [], []⟩
        { emptyData with url := some "http://x.com", authorId := some (some "u1") }
        (some "s1") [] [] "p9" 5).2 = none :=
  ⟨rfl, rfl⟩

/-- Claim C4 (amended): for every create event carrying a non-falsy
submission id whose submission exists and whose owning user id equals
the resolved author id, PROVIDED no existing post matches the incoming
url/canonicalUrl (the dedup guard passes), the submission is set to
`Rejected` with the scout-is-author reason, no post is created, and the
keyword/question indexes are untouched. -/
theorem createPost_self_submission (s : Store) (d : UpdateData) (sid : String)
    (mk qs : List String) (postId : String) (now : Nat) (sub : SubmissionRec)
    (hdedup : ∀ p ∈ s.posts, matchesUrl p d.url d.canonicalUrl = false)
    (hsid : sid ≠ "")
    (hfind : findSubmission s sid = some sub)
    (hauthor : overNull d.authorId none = some sub.userId) :
    createPost s d (some sid) mk qs postId now =
      ({ s with submissions := setSubStatusReason s.submissions sid .rejected .scoutIsAuthor },
       none) ∧
    (∀ x ∈ (createPost s d (some sid) mk qs postId now).1.submissions,
      x.id = sid → x.status = .rejected ∧ x.reason = some .scoutIsAuthor) ∧
    (createPost s d (some sid) mk qs postId now).1.posts = s.posts ∧
    (createPost s d (some sid) mk qs postId now).1.postKeywords = s.postKeywords ∧
    (createPost s d (some sid) mk qs postId now).1.postQuestions = s.postQuestions := by
  have hany : s.posts.any (fun q => matchesUrl q d.url d.canonicalUrl) = false := by
    rw [List.any_eq_false]
    intro p hp
    simp [hdedup p hp]
  have hres : createPost s d (some sid) mk qs postId now =
      ({ s with submissions := setSubStatusReason s.submissions sid .rejected .scoutIsAuthor },
       none) := by
    unfold createPost
    simp [hany, hsid, hfind, hauthor]
  refine ⟨hres, ?_, by rw [hres], by rw [hres], by rw [hres]⟩
  intro x hx hxid
  rw [hres] at hx
  exact setSubStatusReason_mem hx hxid

/-- Witness for C4 (amended): empty post table, started submission `s1`
owned by `u1`, resolved author `u1` — the submission is rejected with
the scout-is-author reason and nothing else changes. -/
theorem createPost_self_submission_witness :
    createPost ⟨[], [⟨"s1", "u1", .started, none⟩], [], []⟩
        { emptyData with authorId := some (some "u1") } (some "s1") [] [] "p9" 5 =
      (⟨[], [⟨"s1", "u1", .rejected, some .scoutIsAuthor⟩], [], []⟩, none) := by
  have h := (createPost_self_submission
      ⟨[], [⟨"s1", "u1", .started, none⟩], [], []⟩
      { emptyData with authorId := some (some "u1") } "s1" [] [] "p9" 5
      ⟨"s1", "u1", .started, none⟩ (by decide) (by decide) rfl rfl).1
  rw [h]
  decide

/-! ### Claim C2 -/

/-- Claim C2: if some existing post's url or canonicalUrl equals the
incoming url or canonicalUrl (any of the four combinations),
`createPost` inserts nothing and mutates nothing; consequently, for two
create events whose present URL/canonicalUrl values intersect, the
second (run after a successful first) creates no second post. -/
theorem createPost_dedup (s : Store) (d1 d2 : UpdateData) (sub1 sub2 : Option String)
    (mk1 q1 mk2 q2 : List String) (pid1 pid2 : String) (now1 now2 : Nat) :
    ((∃ p ∈ s.posts, matchesUrl p d1.url d1.canonicalUrl = true) →
      createPost s d1 sub1 mk1 q1 pid1 now1 = (s, none)) ∧
    (∀ p1, (createPost s d1 sub1 mk1 q1 pid1 now1).2 = some p1 →
      (∃ u, (d1.url = some u ∨ d1.canonicalUrl = some u) ∧
            (d2.url = some u ∨ d2.canonicalUrl = some u)) →
      createPost (createPost s d1 sub1 mk1 q1 pid1 now1).1 d2 sub2 mk2 q2 pid2 now2
        = ((createPost s d1 sub1 mk1 q1 pid1 now1).1, none)) := by
  have hfirst : ∀ (s' : Store) (d' : UpdateData) (sub' : Option String)
      (mk' q' : List String) (pid' : String) (now' : Nat),
      (∃ p ∈ s'.posts, matchesUrl p d'.url d'.canonicalUrl = true) →
      createPost s' d' sub' mk' q' pid' now' = (s', none) := by
    intro s' d' sub' mk' q' pid' now' hex
    obtain ⟨p, hp, hm⟩ := hex
    unfold createPost
    rw [if_pos (List.any_eq_true.mpr ⟨p, hp, hm⟩)]
  refine ⟨hfirst s d1 sub1 mk1 q1 pid1 now1, ?_⟩
  intro p1 h hint
  obtain ⟨u, hu1, hu2⟩ := hint
  obtain ⟨dd, hurl, hcanon, -, -, -, -, -, -, hp, hposts⟩ := createPost_created h
  apply hfirst
  have hpu : p1.url = d1.url := by
    rw [hp]
    exact hurl
  have hpc : p1.canonicalUrl = d1.canonicalUrl := by
    rw [hp]
    exact hcanon
  refine ⟨p1, ?_, ?_⟩
  · rw [hposts]
    exact List.mem_append_right _ (List.mem_singleton_self _)
  · rcases hu1 with h1 | h1 <;> rcases hu2 with h2 | h2 <;>
      simp [matchesUrl, urlOptEq, hpu, hpc, h1, h2]

/-- Witness for C2: creating `url = "http://x.com"` into an empty
store, then a second create whose canonicalUrl is the same value, is a
no-op for the second event. -/
theorem createPost_dedup_witness :
    createPost
        (createPost ⟨[], [], [], []⟩ { emptyData with url := some "http://x.com" }
          none [] [] "id1" 0).1
        { emptyData with canonicalUrl := some "http://x.com" } none [] [] "id2" 1
      = ((createPost ⟨[], [], [], []⟩ { emptyData with url := some "http://x.com" }
          none [] [] "id1" 0).1, none) :=
  (createPost_dedup ⟨[], [], [], []⟩ { emptyData with url := some "http://x.com" }
      { emptyData with canonicalUrl := some "http://x.com" } none none [] [] [] []
      "id1" "id2" 0 1).2
    (toPostRec (finalizedData { emptyData with url := some "http://x.com" } "id1" 0))
    rfl ⟨"http://x.com", Or.inl rfl, Or.inr rfl⟩

/-! ### Claim C6 -/

/-- Claim C6: a created post is visible with a set `visibleAt` exactly
when the event's title is a non-empty string; with an empty or missing
title it is created invisible with `visibleAt = null`. -/
theorem handleCreate_visibility (env : FixEnv) (e : EventData) (extra : Option EventExtra)
    (s : Store) (postId : String) (now : Nat) (p : PostRec)
    (h : (handleCreate env e extra s postId now).2 = some p) :
    (strTruthy e.title = true → p.visible = true ∧ p.visibleAt = some env.now) ∧
    (strTruthy e.title = false → p.visible = false ∧ p.visibleAt = none) := by
  have h2 : (createPost s (fixData env e extra).fixedData e.submission_id
      (fixData env e extra).mergedKeywords (fixData env e extra).questions
      postId now).2 = some p := h
  obtain ⟨d2, -, -, hv, hva, -, -, -, -, hp, -⟩ := createPost_created h2
  have hfv : (fixData env e extra).fixedData.visible = some (strTruthy e.title) := rfl
  have hfva : (fixData env e extra).fixedData.visibleAt =
      some (if strTruthy e.title then some env.now else none) := rfl
  subst hp
  constructor <;> intro ht
  · refine ⟨?_, ?_⟩
    · show d2.visible.getD false = true
      rw [hv, hfv, ht]
      rfl
    · show overNull d2.visibleAt none = some env.now
      rw [hva, hfva, ht]
      rfl
  · refine ⟨?_, ?_⟩
    · show d2.visible.getD false = false
      rw [hv, hfv, ht]
      rfl
    · show overNull d2.visibleAt none = none
      rw [hva, hfva, ht]
      rfl

/-- Witness for C6: an event titled `"Hello"` (clock 42) creates a
visible post with `visibleAt = 42`. -/
theorem handleCreate_visibility_witness :
    (toPostRec (finalizedData
        (fixData ⟨none, none, [], [], none, 42, fun t => t⟩
          ⟨"y1", none, some "http://x.com", none, some "Hello", none, none, none,
           none, none, none, none, none⟩ none).fixedData "pid" 7)).visible = true ∧
    (toPostRec (finalizedData
        (fixData ⟨none, none, [], [], none, 42, fun t => t⟩
          ⟨"y1", none, some "http://x.com", none, some "Hello", none, none, none,
           none, none, none, none, none⟩ none).fixedData "pid" 7)).visibleAt = some 42 :=
  (handleCreate_visibility ⟨none, none, [], [], none, 42, fun t => t⟩
      ⟨"y1", none, some "http://x.com", none, some "Hello", none, none, none,
       none, none, none, none, none⟩ none ⟨[], [], [], []⟩ "pid" 7 _ rfl).1 rfl

/-! ### Update-path lemmas -/

/-- The squad-origin override never changes the incoming
`metadataChangedAt`. -/
theorem squadFix_metadataChangedAt (d : UpdateData) :
    (if d.origin = some PostOrigin.squad
      then { d with sourceId := some UNKNOWN_SOURCE } else d).metadataChangedAt
      = d.metadataChangedAt := by
  split <;> rfl

/-- The squad-origin override never changes the incoming tag string. -/
theorem squadFix_tagsStr (d : UpdateData) :
    (if d.origin = some PostOrigin.squad
      then { d with sourceId := some UNKNOWN_SOURCE } else d).tagsStr = d.tagsStr := by
  split <;> rfl

/-- When the typed lookup finds a strictly older row, `updatePost`
applies the update. -/
theorem updatePost_applied {s : Store} {d : UpdateData} {id : String}
    {mk qs : List String} {ct : PostType} {old : PostRec}
    (hf : s.posts.find? (postMatches id ct) = some old)
    (hfresh : old.metadataChangedAt < d.metadataChangedAt) :
    updatePost s d id mk qs ct =
      (updatePostApply s (if d.origin = some PostOrigin.squad
        then { d with sourceId := some UNKNOWN_SOURCE } else d) old mk qs ct, true) := by
  unfold updatePost
  simp only [hf]
  rw [if_neg]
  rw [squadFix_metadataChangedAt]
  exact Nat.not_le.mpr hfresh

/-- `cascadeShare` never changes the subtype of a row. -/
theorem cascadeShare_ptype (tid : String) (d : UpdateData) (p : PostRec) :
    (cascadeShare tid d p).ptype = p.ptype := by
  unfold cascadeShare
  split <;> rfl

/-- `cascadeShare` does not touch rows that are not share posts. -/
theorem cascadeShare_of_ptype_ne {p : PostRec} (tid : String) (d : UpdateData)
    (h : p.ptype ≠ .share) : cascadeShare tid d p = p := by
  unfold cascadeShare
  rw [if_neg]
  rintro ⟨h1, -⟩
  exact h h1

/-! ### Claim C10 -/

/-- Claim C10: a non-stale update of an existing non-Freeform post that
is already visible writes `visible = false` and `visibleAt = null` back
to the row (the became-visible computation is false for already-visible
non-Freeform posts) and does not trigger the SharePost cascade: every
row not targeted by the update survives unchanged. -/
theorem updatePost_nonfreeform_visible_downgrade (s : Store) (d : UpdateData)
    (id : String) (mk qs : List String) (ct : PostType) (old : PostRec)
    (hct : ct ≠ .freeform)
    (hf : s.posts.find? (postMatches id ct) = some old)
    (hvis : old.visible = true)
    (hfresh : old.metadataChangedAt < d.metadataChangedAt) :
    (∀ p2 ∈ (updatePost s d id mk qs ct).1.posts, p2.id = old.id → p2.ptype = ct →
      p2.visible = false ∧ p2.visibleAt = none) ∧
    (∀ p ∈ s.posts, postMatches old.id ct p = false →
      p ∈ (updatePost s d id mk qs ct).1.posts) := by
  rw [updatePost_applied hf hfresh]
  have hctf : (ct = PostType.freeform) = False := eq_false hct
  simp only [updatePostApply, hctf, if_false, hvis, Bool.not_true, Bool.false_and,
    Bool.false_eq_true, reduceIte]
  constructor
  · intro p2 hp2 hid2 hpt2
    obtain ⟨p1, hp1, heq⟩ := List.mem_map.mp hp2
    by_cases hm : postMatches old.id ct p1 = true
    · rw [if_pos hm] at heq
      subst heq
      exact ⟨rfl, rfl⟩
    · rw [if_neg hm] at heq
      subst heq
      exact absurd (decide_eq_true ⟨hid2, hpt2⟩) hm
  · intro p hp hm
    refine List.mem_map.mpr ⟨p, hp, ?_⟩
    rw [hm]
    simp

/-- A row that is not a share post passes through a cascade map
unchanged. -/
theorem mem_of_mem_map_cascade {l : List PostRec} {tid : String} {d3 : UpdateData}
    {p2 : PostRec} (hp2 : p2 ∈ l.map (cascadeShare tid d3)) (hne : p2.ptype ≠ .share) :
    p2 ∈ l := by
  obtain ⟨q, hq, hcq⟩ := List.mem_map.mp hp2
  have hqp : q.ptype = p2.ptype := by
    rw [← hcq, cascadeShare_ptype]
  have hfix : cascadeShare tid d3 q = q :=
    cascadeShare_of_ptype_ne _ _ (by rw [hqp]; exact hne)
  rw [hfix] at hcq
  exact hcq ▸ hq

/-- Applying a freeform-stripped payload through the update map leaves
every non-allowlisted column of the matched rows unchanged. -/
theorem map_update_freeform_mem {posts : List PostRec} {oldId : String}
    {dc : UpdateData} {fa : Flags} {p2 : PostRec}
    (hp2 : p2 ∈ posts.map (fun p => if postMatches oldId .freeform p
      then applyUpdate p (stripForFreeform dc) fa else p))
    (hft : p2.ptype = .freeform) (hid : p2.id = oldId) :
    ∃ p1 ∈ posts, p1.ptype = .freeform ∧ p1.id = oldId ∧
      p2.url = p1.url ∧ p2.canonicalUrl = p1.canonicalUrl ∧ p2.title = p1.title ∧
      p2.image = p1.image ∧ p2.authorId = p1.authorId ∧ p2.scoutId = p1.scoutId ∧
      p2.creatorTwitter = p1.creatorTwitter ∧ p2.siteTwitter = p1.siteTwitter ∧
      p2.sourceId = p1.sourceId ∧ p2.origin = p1.origin ∧ p2.createdAt = p1.createdAt ∧
      p2.publishedAt = p1.publishedAt ∧ p2.score = p1.score ∧ p2.shortId = p1.shortId ∧
      p2.priv = p1.priv ∧ p2.sentAnalyticsReport = p1.sentAnalyticsReport ∧
      p2.showOnFeed = p1.showOnFeed ∧ p2.toc = p1.toc ∧
      p2.sharedPostId = p1.sharedPostId := by
  obtain ⟨p1, hp1, heq⟩ := List.mem_map.mp hp2
  by_cases hm : postMatches oldId .freeform p1 = true
  · rw [if_pos hm] at heq
    obtain ⟨hid1, hpt1⟩ := of_decide_eq_true hm
    subst heq
    exact ⟨p1, hp1, hpt1, hid1, rfl, rfl, rfl, rfl, rfl, rfl, rfl, rfl, rfl, rfl,
      rfl, rfl, rfl, rfl, rfl, rfl, rfl, rfl, rfl⟩
  · rw [if_neg hm] at heq
    subst heq
    exact ⟨p1, hp1, hft, hid, rfl, rfl, rfl, rfl, rfl, rfl, rfl, rfl, rfl, rfl,
      rfl, rfl, rfl, rfl, rfl, rfl, rfl, rfl, rfl⟩

/-! ### Claim C3 -/

/-- Claim C3: a non-stale Freeform update persists at most the
allowlisted fields (contentCuration, description, metadataChangedAt,
readTime, summary, tagsStr) plus the always-kept id, visibility,
flags and external id; every other incoming field is dropped, leaving
the corresponding stored columns of the freeform row unchanged. -/
theorem updatePost_freeform_isolation (s : Store) (d : UpdateData) (id : String)
    (mk qs : List String) (old : PostRec)
    (hf : s.posts.find? (postMatches id .freeform) = some old)
    (hfresh : old.metadataChangedAt < d.metadataChangedAt) :
    ∀ p2 ∈ (updatePost s d id mk qs .freeform).1.posts,
      p2.ptype = .freeform → p2.id = old.id →
      ∃ p1 ∈ s.posts, p1.ptype = .freeform ∧ p1.id = old.id ∧
        p2.url = p1.url ∧ p2.canonicalUrl = p1.canonicalUrl ∧ p2.title = p1.title ∧
        p2.image = p1.image ∧ p2.authorId = p1.authorId ∧ p2.scoutId = p1.scoutId ∧
        p2.creatorTwitter = p1.creatorTwitter ∧ p2.siteTwitter = p1.siteTwitter ∧
        p2.sourceId = p1.sourceId ∧ p2.origin = p1.origin ∧ p2.createdAt = p1.createdAt ∧
        p2.publishedAt = p1.publishedAt ∧ p2.score = p1.score ∧ p2.shortId = p1.shortId ∧
        p2.priv = p1.priv ∧ p2.sentAnalyticsReport = p1.sentAnalyticsReport ∧
        p2.showOnFeed = p1.showOnFeed ∧ p2.toc = p1.toc ∧
        p2.sharedPostId = p1.sharedPostId := by
  rw [updatePost_applied hf hfresh]
  intro p2 hp2 hft hid
  simp only [updatePostApply, reduceIte] at hp2
  by_cases hov : old.visible = true
  · rw [if_pos hov] at hp2
    exact map_update_freeform_mem
      (mem_of_mem_map_cascade hp2 (by rw [hft]; decide)) hft hid
  · rw [if_neg hov] at hp2
    exact map_update_freeform_mem hp2 hft hid

/-! ### Keyword-index lemmas -/

/-- Projections of `stripForFreeform` on allowlisted fields. -/
theorem stripForFreeform_tagsStr (x : UpdateData) :
    (stripForFreeform x).tagsStr = x.tagsStr := rfl

/-- Freeform stripping preserves the tag string on either side of the
content-type conditional. -/
theorem ite_strip_tagsStr (c : Prop) [Decidable c] (x : UpdateData) :
    (if c then stripForFreeform x else x).tagsStr = x.tagsStr := by
  split <;> rfl

/-- `addKeywords` contains a pair that was already indexed or whose
keyword is in the applied list. -/
theorem addKeywords_mem_or (idx : List (String × String)) (ks : List String)
    (pid k : String) (h : (k, pid) ∈ idx ∨ k ∈ ks) :
    (k, pid) ∈ addKeywords idx ks pid := by
  induction ks generalizing idx with
  | nil =>
    rcases h with h | h
    · exact h
    · cases h
  | cons a ks ih =>
    show (k, pid) ∈ addKeywords (if (a, pid) ∈ idx then idx else idx ++ [(a, pid)]) ks pid
    apply ih
    rcases h with h | h
    · left
      split
      · exact h
      · exact List.mem_append_left _ h
    · rcases List.mem_cons.mp h with rfl | h
      · left
        split
        · assumption
        · exact List.mem_append_right _ (List.mem_singleton_self _)
      · right
        exact h

/-- `addKeywords` adds nothing for keywords outside the applied list. -/
theorem addKeywords_not_mem (idx : List (String × String)) (ks : List String)
    (pid k : String) (h1 : (k, pid) ∉ idx) (h2 : k ∉ ks) :
    (k, pid) ∉ addKeywords idx ks pid := by
  induction ks generalizing idx with
  | nil => exact h1
  | cons a ks ih =>
    have hka : k ≠ a := fun he => h2 (he ▸ List.mem_cons_self a ks)
    show (k, pid) ∉ addKeywords (if (a, pid) ∈ idx then idx else idx ++ [(a, pid)]) ks pid
    apply ih
    · split
      · exact h1
      · intro hc
        rcases List.mem_append.mp hc with hc | hc
        · exact h1 hc
        · rw [List.mem_singleton, Prod.mk.injEq] at hc
          exact hka hc.1
    · exact fun hc => h2 (List.mem_cons_of_mem a hc)

/-- `removeKeywords` removes every association of the given keywords
with the given post. -/
theorem removeKeywords_not_mem (idx : List (String × String)) (ks : List String)
    (pid k : String) (h : k ∈ ks) : (k, pid) ∉ removeKeywords idx ks pid := by
  intro hc
  unfold removeKeywords at hc
  have hpred := (List.mem_filter.mp hc).2
  simp [h] at hpred

/-! ### Claim C7 -/

/-- Claim C7: a non-stale update whose incoming tag string differs from
the stored one removes the stored tag string's keywords from the
post's index and additively applies the merged keyword set, so shared
keywords stay associated, dropped keywords lose their association, and
new keywords gain one; an unchanged tag string leaves the keyword index
untouched. -/
theorem updatePost_keyword_reindex (s : Store) (d : UpdateData) (id : String)
    (mk qs : List String) (ct : PostType) (old : PostRec)
    (hf : s.posts.find? (postMatches id ct) = some old)
    (hfresh : old.metadataChangedAt < d.metadataChangedAt) :
    (∀ v ts, d.tagsStr = some v → v ≠ old.tagsStr → old.tagsStr = some ts → ts ≠ "" →
      (updatePost s d id mk qs ct).1.postKeywords =
        addKeywords (removeKeywords s.postKeywords (splitComma ts) old.id) mk old.id ∧
      (∀ k ∈ mk, (k, old.id) ∈ (updatePost s d id mk qs ct).1.postKeywords) ∧
      (∀ k ∈ splitComma ts, k ∉ mk →
        (k, old.id) ∉ (updatePost s d id mk qs ct).1.postKeywords)) ∧
    (d.tagsStr = some old.tagsStr →
      (updatePost s d id mk qs ct).1.postKeywords = s.postKeywords) := by
  rw [updatePost_applied hf hfresh]
  simp only [updatePostApply, ite_strip_tagsStr, squadFix_tagsStr]
  constructor
  · intro v ts hv hne hold hts
    rw [hv, hold]
    have hch : tagsChanged (some ts) (some v) = true := by
      rw [← hold]
      simp [tagsChanged, hne]
    simp only [hch, reduceIte, if_neg hts]
    refine ⟨trivial, ?_, ?_⟩
    · intro k hk
      exact addKeywords_mem_or _ _ _ _ (Or.inr hk)
    · intro k hk hnk
      exact addKeywords_not_mem _ _ _ _ (removeKeywords_not_mem _ _ _ _ hk) hnk
  · intro hv
    rw [hv]
    have hch : tagsChanged old.tagsStr (some old.tagsStr) = false := by
      simp [tagsChanged]
    simp only [hch, Bool.false_eq_true, if_false]

/-! ### Concrete instances for the update-path claims -/

/-- Stored article post, already visible, for the C10 instance. -/
def postW10 : PostRec :=
  { basePost with visible := true, visibleAt := some 5, metadataChangedAt := 10 }

/-- Store holding `postW10`. -/
def storeW10 : Store := ⟨[postW10], [], [], []⟩

/-- Fresh update payload (newer metadata timestamp). -/
def dataW10 : UpdateData := { emptyData with metadataChangedAt := 20 }

/-- Witness for C10: updating an already-visible article post writes
`visible = false` and `visibleAt = null` back to the stored row. -/
theorem updatePost_nonfreeform_visible_downgrade_witness :
    ((updatePost storeW10 dataW10 "p1" [] [] .article).1.posts.headD basePost).visible
      = false ∧
    ((updatePost storeW10 dataW10 "p1" [] [] .article).1.posts.headD basePost).visibleAt
      = none :=
  (updatePost_nonfreeform_visible_downgrade storeW10 dataW10 "p1" [] [] .article postW10
      (by decide) rfl rfl (by decide)).1
    ((updatePost storeW10 dataW10 "p1" [] [] .article).1.posts.headD basePost)
    (by decide) (by decide) (by decide)

/-- Stored freeform post for the C3 instance. -/
def postW3 : PostRec :=
  { basePost with
    id := "f1"
    shortId := "f1"
    ptype := .freeform
    url := some "http://old.com"
    title := some "Old"
    metadataChangedAt := 10
    summary := some "olds"
    priv := some false }

/-- Store holding `postW3`. -/
def storeW3 : Store := ⟨[postW3], [], [], []⟩

/-- Freeform update payload carrying fields outside the allowlist. -/
def dataW3 : UpdateData :=
  { emptyData with
    metadataChangedAt := 20
    url := some "http://new.com"
    title := some "New"
    summary := some "news"
    priv := some true
    authorId := some (some "a1") }

/-- The freeform row after the C3 update. -/
def updatedW3 : PostRec :=
  (updatePost storeW3 dataW3 "f1" [] [] .freeform).1.posts.headD basePost

/-- Witness for C3: the updated freeform row keeps every
non-allowlisted column of the stored row (url, title, priv, author and
the rest), despite the payload carrying new values for some of them. -/
theorem updatePost_freeform_isolation_witness :
    ∃ p1 ∈ storeW3.posts, p1.ptype = .freeform ∧ p1.id = postW3.id ∧
      updatedW3.url = p1.url ∧ updatedW3.canonicalUrl = p1.canonicalUrl ∧
      updatedW3.title = p1.title ∧ updatedW3.image = p1.image ∧
      updatedW3.authorId = p1.authorId ∧ updatedW3.scoutId = p1.scoutId ∧
      updatedW3.creatorTwitter = p1.creatorTwitter ∧
      updatedW3.siteTwitter = p1.siteTwitter ∧ updatedW3.sourceId = p1.sourceId ∧
      updatedW3.origin = p1.origin ∧ updatedW3.createdAt = p1.createdAt ∧
      updatedW3.publishedAt = p1.publishedAt ∧ updatedW3.score = p1.score ∧
      updatedW3.shortId = p1.shortId ∧ updatedW3.priv = p1.priv ∧
      updatedW3.sentAnalyticsReport = p1.sentAnalyticsReport ∧
      updatedW3.showOnFeed = p1.showOnFeed ∧ updatedW3.toc = p1.toc ∧
      updatedW3.sharedPostId = p1.sharedPostId :=
  updatePost_freeform_isolation storeW3 dataW3 "f1" [] [] postW3 rfl (by decide)
    updatedW3 (by decide) (by decide) (by decide)

/-- Stored post tagged `"a,b"` with both keywords indexed, for C7. -/
def postW7 : PostRec := { basePost with metadataChangedAt := 10, tagsStr := some "a,b" }

/-- Store holding `postW7` and its keyword associations. -/
def storeW7 : Store := ⟨[postW7], [], [("a", "p1"), ("b", "p1")], []⟩

/-- Update payload changing the tag string to `"b,c"`. -/
def dataW7 : UpdateData :=
  { emptyData with metadataChangedAt := 20, tagsStr := some (some "b,c") }

/-- Witness for C7: re-tagging `"a,b"` to `"b,c"` (merged set
`["b","c"]`) keeps `b` associated, adds `c`, and drops `a`. -/
theorem updatePost_keyword_reindex_witness :
    ("b", "p1") ∈ (updatePost storeW7 dataW7 "p1" ["b", "c"] [] .article).1.postKeywords ∧
    ("c", "p1") ∈ (updatePost storeW7 dataW7 "p1" ["b", "c"] [] .article).1.postKeywords ∧
    ("a", "p1") ∉ (updatePost storeW7 dataW7 "p1" ["b", "c"] [] .article).1.postKeywords := by
  have T := (updatePost_keyword_reindex storeW7 dataW7 "p1" ["b", "c"] [] .article postW7
      rfl (by decide)).1 (some "b,c") "a,b" rfl (by decide) rfl (by decide)
  exact ⟨T.2.1 "b" (by decide), T.2.1 "c" (by decide), T.2.2 "a" (by decide) (by decide)⟩

end DailyApi
